import Mathlib

/-!
Shallow embedding of the Mafia game engine from `src/mafia_rust/src/game.rs`.

The Rust engine is generic over a raw player id type `U : RawPID`; the
embedding keeps that genericity (with `DecidableEq U` standing in for the
`PartialEq + Eq` bounds).  `Pidx` (a positional roster index, Rust `usize`)
is `Nat`.  Functions that in Rust send events on an `mpsc` channel instead
return the list of events they would send, in order; functions that mutate
collections in place instead return the updated collection.
-/

namespace Mafia

/-- Positional index of a player in the live roster (Rust `type Pidx = usize`). -/
abbrev Pidx := Nat

/-- Role catalog (`enum Role<U>` in `mod role`). -/
inductive Role (U : Type) where
  | TOWN
  | COP
  | DOCTOR
  | CELEB
  | MILLER
  | MASON
  | MAFIA
  | GODFATHER
  | STRIPPER
  | GOON
  | IDIOT
  | SURVIVOR
  | GUARD (u : U)
  | AGENT (u : U)
deriving DecidableEq

/-- Teams (`enum Team`). -/
inductive Team where
  | Town
  | Mafia
  | Rogue
deriving DecidableEq

namespace Role

/-- `Role::team` from `mod role`. -/
def team {U : Type} : Role U → Team
  | .TOWN | .COP | .DOCTOR | .CELEB => Team.Town
  | .MILLER | .MASON => Team.Town
  | .MAFIA | .GODFATHER | .GOON | .STRIPPER => Team.Mafia
  | .IDIOT | .SURVIVOR | .GUARD _ | .AGENT _ => Team.Rogue

/-- `Role::investigate_mafia`. -/
def investigate_mafia {U : Type} : Role U → Bool
  | .GODFATHER => false
  | .MILLER => true
  | r => decide (r.team = Team.Mafia)

/-- `Role::has_night_action`: only COP, DOCTOR and STRIPPER. -/
def has_night_action {U : Type} : Role U → Bool
  | .COP | .DOCTOR | .STRIPPER => true
  | _ => false

end Role

/-- `struct Player<U>` (raw id, display name, role). -/
structure Player (U : Type) where
  raw_pid : U
  name : String
  role : Role U
deriving DecidableEq

/-- `enum Winner`. -/
inductive Winner where
  | Team (t : Team)
  | Player (p : Pidx)
deriving DecidableEq

/-- `enum Ballot<U>`. -/
inductive Ballot (U : Type) where
  | Player (p : U)
  | Abstain
deriving DecidableEq

/-- `enum Actor<U>`: an individual night actor or an anonymous Mafia member. -/
inductive Actor (U : Type) where
  | Player (p : U)
  | Mafia (p : U)
deriving DecidableEq

namespace Actor

/-- `Actor::overlaps`: same individual player, or both Mafia. -/
def overlaps {U : Type} [DecidableEq U] : Actor U → Actor U → Bool
  | .Player p1, .Player p2 => decide (p1 = p2)
  | .Mafia _, .Mafia _ => true
  | _, _ => false

/-- `Actor::is_player`. -/
def is_player {U : Type} [DecidableEq U] (a : Actor U) (p : U) : Bool :=
  match a with
  | .Player p2 => decide (p = p2)
  | _ => false

/-- `Actor::is_mafia`. -/
def is_mafia {U : Type} : Actor U → Bool
  | .Mafia _ => true
  | _ => false

end Actor

/-- `enum Target<U>`; `Blocked` is only produced internally. -/
inductive Target (U : Type) where
  | Player (p : U)
  | NoTarget
  | Blocked
deriving DecidableEq

/-- `type Votes = Vec<(Pidx, Ballot<Pidx>)>`. -/
abbrev Votes := List (Pidx × Ballot Pidx)

/-- `type Actions = Vec<(Actor<Pidx>, Target<Pidx>)>`. -/
abbrev Actions := List (Actor Pidx × Target Pidx)

/-- `enum Phase`; each of Day/Night owns its mutable collection. -/
inductive Phase where
  | Init
  | Day (day_no : Nat) (votes : Votes)
  | Night (night_no : Nat) (actions : Actions)
  | End (w : Winner)
deriving DecidableEq

namespace Phase

/-- `Phase::clear`: empty the owning collection, leave Init/End alone. -/
def clear : Phase → Phase
  | .Day d _ => .Day d []
  | .Night n _ => .Night n []
  | p => p

end Phase

/-- `enum Event<U>` from `mod interface`.  Note that `Kill`, `Strip`, `Save`
and `Investigate` are unit variants carrying no data, and there is no
retraction or no-kill variant at all. -/
inductive Event (U : Type) where
  | Start (players : List (Player U)) (phase : Phase)
  | Day
  | Vote (voter : Pidx) (ballot : Option (Ballot Pidx))
      (former : Option (Ballot Pidx)) (threshold : Nat) (count : Nat)
  | Elect (ballot : Ballot Pidx)
  | Night
  | Action (actor : Actor Pidx) (target : Option (Target Pidx))
  | Dawn
  | Strip
  | Save
  | Investigate
  | Kill
  | Eliminate (player : Pidx)
  | Win
  | End
  | InvalidCommand
deriving DecidableEq

variable {U : Type} [DecidableEq U]

/-- `Game::check_player`: position of the player with the given raw id, if any. -/
def check_player (players : List (Player U)) (raw_pid : U) : Option Pidx :=
  players.findIdx? (fun p => decide (p.raw_pid = raw_pid))

/-- `Game::validate_vote`: resolve the voter and (when present) the ballot
target to roster indices; `none` models the `Err` case. -/
def validate_vote (players : List (Player U)) (raw_voter : U)
    (raw_ballot : Option (Ballot U)) : Option (Pidx × Option (Ballot Pidx)) := do
  let voter ← check_player players raw_voter
  match raw_ballot with
  | some (Ballot.Player raw_pid) => do
      let p ← check_player players raw_pid
      pure (voter, some (Ballot.Player p))
  | some Ballot.Abstain => pure (voter, some Ballot.Abstain)
  | none => pure (voter, none)

/-- `Game::accept_vote`: remove the voter's prior ballot (returning it as
`former`), and push the new ballot when one was cast. -/
def accept_vote (votes : Votes) (voter : Pidx) (ballot : Option (Ballot Pidx)) :
    Votes × Option (Ballot Pidx) :=
  let removed : Votes × Option (Ballot Pidx) :=
    match votes.findIdx? (fun vb => decide (vb.1 = voter)) with
    | some i => (votes.eraseIdx i, (votes[i]?).map (fun vb => vb.2))
    | none => (votes, none)
  match ballot with
  | some b => (removed.1 ++ [(voter, b)], removed.2)
  | none => (removed.1, removed.2)

/-- `Game::check_elect`: look at the most recently cast ballot, emit the
`Vote` event with its live count and threshold, and elect it when the count
reaches the threshold.  Returns (events, elected ballot). -/
def check_elect (players : List (Player U)) (votes : Votes)
    (former : Option (Ballot Pidx)) : List (Event U) × Option (Ballot Pidx) :=
  let n_players := players.length
  let threshold := n_players / 2 + 1
  let lo_thresh := (n_players + 1) / 2
  match votes.getLast? with
  | none => ([], none)
  | some (last_voter, last_ballot) =>
    let threshold1 := match last_ballot with
      | Ballot.Abstain => lo_thresh
      | _ => threshold
    let count := (votes.filter (fun vb => decide (vb.2 = last_ballot))).length
    let evs := [Event.Vote last_voter (some last_ballot) former threshold1 count]
    let res : Option (Ballot Pidx) := match last_ballot with
      | Ballot.Player candidate =>
          if threshold ≤ count then some (Ballot.Player candidate) else none
      | Ballot.Abstain =>
          if lo_thresh ≤ count then some Ballot.Abstain else none
    (evs, res)

/-- `Game::handle_vote`: validate, then accept and run election evaluation;
on a validation error emit a single `InvalidCommand` and leave the tally
unchanged.  Returns (new tally, events, elected ballot). -/
def handle_vote (players : List (Player U)) (votes : Votes) (raw_voter : U)
    (raw_ballot : Option (Ballot U)) :
    Votes × List (Event U) × Option (Ballot Pidx) :=
  match validate_vote players raw_voter raw_ballot with
  | none => (votes, [Event.InvalidCommand], none)
  | some (voter, ballot) =>
    let accepted := accept_vote votes voter ballot
    let elect := check_elect (U := U) players accepted.1 accepted.2
    (accepted.1, elect.1, elect.2)

/-- Actor half of `Game::validate_action`: resolve the underlying raw id.
No role-capability or team-membership check is performed by the source. -/
def validate_actor (players : List (Player U)) : Actor U → Option (Actor Pidx)
  | Actor.Player raw_pid => (check_player players raw_pid).map Actor.Player
  | Actor.Mafia raw_pid => (check_player players raw_pid).map Actor.Mafia

/-- Target half of `Game::validate_action`: resolve a `Player` target;
`None` and `Blocked` submissions both normalise to no target. -/
def validate_target (players : List (Player U)) :
    Option (Target U) → Option (Option (Target Pidx))
  | some (Target.Player raw_pid) =>
      (check_player players raw_pid).map (fun p => some (Target.Player p))
  | some Target.NoTarget => some (some Target.NoTarget)
  | none => some none
  | some Target.Blocked => some none

/-- `Game::validate_action`: resolve actor and target; `none` models `Err`. -/
def validate_action (players : List (Player U)) (raw_actor : Actor U)
    (raw_target : Option (Target U)) :
    Option (Actor Pidx × Option (Target Pidx)) := do
  let actor ← validate_actor players raw_actor
  let target ← validate_target players raw_target
  pure (actor, target)

/-- `Game::accept_action`: drop the first entry whose actor overlaps the new
one, then (when a target was given) emit an `Action` event and push the new
entry.  No role-based rewriting of the target occurs (the Goon check is a
`TODO` comment in the source).  Returns (new tally, events). -/
def accept_action (actions : Actions) (actor : Actor Pidx)
    (target : Option (Target Pidx)) : Actions × List (Event U) :=
  let removed : Actions :=
    match actions.findIdx? (fun at1 => at1.1.overlaps actor) with
    | some i => actions.eraseIdx i
    | none => actions
  match target with
  | some t => (removed ++ [(actor, t)], [Event.Action actor (some t)])
  | none => (removed, [])

/-- `Game::check_dawn`: every player whose role has a night action must have
an entry, and at least one Mafia entry must exist. -/
def check_dawn (players : List (Player U)) (actions : Actions) : Bool :=
  let actors :=
    ((players.enum.filter (fun ip => ip.2.role.has_night_action)).map
      (fun ip => Actor.Player ip.1)) ++ [Actor.Mafia 0]
  actors.all (fun actor =>
    match actor with
    | Actor.Player _ => actions.any (fun at1 => decide (at1.1 = actor))
    | Actor.Mafia _ => actions.any (fun at1 => at1.1.is_mafia))

/-- `Game::handle_action`: validate, then accept and check readiness for
dawn; on a validation error emit a single `InvalidCommand` and leave the
tally unchanged.  Returns (new tally, events, dawn-ready flag). -/
def handle_action (players : List (Player U)) (actions : Actions)
    (raw_actor : Actor U) (raw_target : Option (Target U)) :
    Actions × List (Event U) × Bool :=
  match validate_action players raw_actor raw_target with
  | none => (actions, [Event.InvalidCommand], false)
  | some (actor, target) =>
    let accepted := accept_action (U := U) actions actor target
    (accepted.1, accepted.2, check_dawn players accepted.1)

/-- `Game::strip`: for every tally entry whose actor is `Player stripped`,
force its target to `Blocked` and emit `Strip`.  Note the argument the
source passes here is the STRIPPER's own roster index. -/
def strip (actions : Actions) (stripped : Pidx) : Actions × List (Event U) :=
  ((actions.map (fun at1 =>
      if at1.1 = Actor.Player stripped then (at1.1, Target.Blocked) else at1)),
   (actions.filter (fun at1 => decide (at1.1 = Actor.Player stripped))).map
     (fun _ => Event.Strip))

/-- `Game::save`: for every Mafia tally entry, block its target when that
target is `Player saved`, and emit `Save` (for every Mafia entry, blocked or
not).  Note the argument the source passes here is the DOCTOR's own roster
index, not the doctor's declared target. -/
def save (actions : Actions) (saved : Pidx) : Actions × List (Event U) :=
  ((actions.map (fun at1 =>
      match at1.1, at1.2 with
      | Actor.Mafia m, Target.Player p =>
          if p = saved then (Actor.Mafia m, Target.Blocked) else at1
      | _, _ => at1)),
   (actions.filter (fun at1 => at1.1.is_mafia)).map (fun _ => Event.Save))

/-- Fold `strip` over a list of stripper indices, accumulating events. -/
def stripAll (actions : Actions) (strippers : List Pidx) :
    Actions × List (Event U) :=
  strippers.foldl
    (fun acc s =>
      let r := strip (U := U) acc.1 s
      (r.1, acc.2 ++ r.2))
    (actions, [])

/-- Fold `save` over a list of doctor indices, accumulating events. -/
def saveAll (actions : Actions) (doctors : List Pidx) :
    Actions × List (Event U) :=
  doctors.foldl
    (fun acc d =>
      let r := save (U := U) acc.1 d
      (r.1, acc.2 ++ r.2))
    (actions, [])

/-- Investigate stage of `Game::handle_dawn`: one `Investigate` event per
cop whose own entry has a `Player` target (the event itself carries no
data; the result of `investigate_mafia` is only printed by the source). -/
def investigateAll (actions : Actions) (cops : List Pidx) : List (Event U) :=
  cops.foldl
    (fun acc cop =>
      match (actions.find? (fun at1 => at1.1.is_player cop)).map
          (fun at1 => at1.2) with
      | some (Target.Player _) => acc ++ [Event.Investigate]
      | _ => acc)
    []

/-- Roster indices of the players with the given role
(`Game::get_players_that` specialised to a role-equality predicate). -/
def players_with_role (players : List (Player U)) (r : Role U) : List Pidx :=
  (players.enum.filter (fun ip => decide (ip.2.role = r))).map (fun ip => ip.1)

/-- `Game::handle_dawn`: emit `Dawn`, run strip for each stripper, save for
each doctor, investigate for each cop, then look for the first Mafia entry;
when its target is a `Player`, emit `Kill` (a unit event) and return the
victim, otherwise return no victim (and emit nothing further).
Returns (final tally, events, victim). -/
def handle_dawn (players : List (Player U)) (actions : Actions) :
    Actions × List (Event U) × Option Pidx :=
  let stripped := stripAll (U := U) actions (players_with_role players Role.STRIPPER)
  let saved := saveAll (U := U) stripped.1 (players_with_role players Role.DOCTOR)
  let evs3 := investigateAll (U := U) saved.1 (players_with_role players Role.COP)
  let kill := saved.1.find? (fun at1 => at1.1.is_mafia)
  match kill with
  | some (_, Target.Player victim) =>
      (saved.1, [Event.Dawn] ++ stripped.2 ++ saved.2 ++ evs3 ++ [Event.Kill],
       some victim)
  | _ =>
      (saved.1, [Event.Dawn] ++ stripped.2 ++ saved.2 ++ evs3, none)

/-- Number of Mafia-team players in a roster (the `n_mafia` count of
`Game::check_win`). -/
def n_mafia (players : List (Player U)) : Nat :=
  (players.filter (fun p => decide (p.role.team = Team.Mafia))).length

/-- `Game::check_win`: Town when no Mafia remain, Mafia when
`n_players <= n_mafia * 2`, otherwise no winner; emits `Win` on a winner. -/
def check_win (players : List (Player U)) : List (Event U) × Option Team :=
  let n_players := players.length
  let result : Option Team :=
    if n_mafia players = 0 then some Team.Town
    else if n_players ≤ n_mafia players * 2 then some Team.Mafia
    else none
  (if result.isSome then [Event.Win] else [], result)

/-- `Game::eliminate`: emit `Eliminate`, remove the victim from the roster,
clear the phase's collection, then run the win check; on a winner the phase
becomes `End`.  Returns (new roster, new phase, events). -/
def eliminate (players : List (Player U)) (phase : Phase) (victim : Pidx) :
    List (Player U) × Phase × List (Event U) :=
  let players1 := players.eraseIdx victim
  let win := check_win (U := U) players1
  match win.2 with
  | none => (players1, phase.clear, [Event.Eliminate victim] ++ win.1)
  | some winner =>
      (players1, Phase.End (Winner.Team winner), [Event.Eliminate victim] ++ win.1)

/-- `Game::next_phase`: Init becomes Day 1, Day n becomes Night n, Night n
becomes Day (n+1), End stays; then the announcement event for the resulting
phase is emitted (the source panics if the resulting phase is Init, which
is unreachable since Init transitions to Day 1). -/
def next_phase (phase : Phase) : Phase × List (Event U) :=
  let phase1 : Phase :=
    match phase with
    | Phase.Init => Phase.Day 1 []
    | Phase.Day day_no _ => Phase.Night day_no []
    | Phase.Night night_no _ => Phase.Day (night_no + 1) []
    | p => p
  let evs : List (Event U) :=
    match phase1 with
    | Phase.Day _ _ => [Event.Day]
    | Phase.Night _ _ => [Event.Night]
    | Phase.End _ => [Event.End]
    | Phase.Init => []
  (phase1, evs)

/-- Remove the first element satisfying `p` (a structurally recursive
reformulation of the `position` + `remove` pattern used by `accept_vote`
and `accept_action`; proved equal to it below). -/
def removeFirstWith {α : Type} (p : α → Bool) : List α → List α
  | [] => []
  | x :: xs => if p x then xs else x :: removeFirstWith p xs

/-- Underlying raw player id of an actor. -/
def Actor.raw {V : Type} : Actor V → V
  | .Player p => p
  | .Mafia p => p

/-- Number of Mafia-actor entries in a night-action tally. -/
def countMafiaEntries (actions : Actions) : Nat :=
  actions.countP (fun at1 => at1.1.is_mafia)

/-- Number of tally entries whose actor overlaps `a`. -/
def countOverlap (actions : Actions) (a : Actor Pidx) : Nat :=
  actions.countP (fun at1 => at1.1.overlaps a)

/-- Election threshold of a ballot for a roster of size `n`: the shadowed
`threshold` of `check_elect` (`n/2 + 1` for a `Player` ballot, `(n+1)/2`
for `Abstain`). -/
def ballot_threshold (n : Nat) : Ballot Pidx → Nat
  | Ballot.Abstain => (n + 1) / 2
  | _ => n / 2 + 1

/-- Recognises the `Vote` event — the event check_elect emits when it runs
threshold evaluation. -/
def isVoteEvent : Event Nat → Bool
  | .Vote _ _ _ _ _ => true
  | _ => false

/-- Three-player roster: two townies and one mafioso (raw ids 10, 20, 30). -/
def roster3 : List (Player Nat) :=
  [⟨10, "", Role.TOWN⟩, ⟨20, "", Role.TOWN⟩, ⟨30, "", Role.MAFIA⟩]

/-- Roster with a stripper, a doctor and a mafioso (raw ids 10, 20, 30). -/
def roster_sdm : List (Player Nat) :=
  [⟨10, "", Role.STRIPPER⟩, ⟨20, "", Role.DOCTOR⟩, ⟨30, "", Role.MAFIA⟩]

/-- Night tally for `roster_sdm`: the stripper (index 0) targets the doctor
(index 1), the doctor targets themself, the mafia targets the doctor. -/
def acts_sdm : Actions :=
  [(Actor.Player 0, Target.Player 1), (Actor.Player 1, Target.Player 1),
   (Actor.Mafia 2, Target.Player 1)]

/-- Two-player roster: a townie and a mafioso (raw ids 1, 2). -/
def roster_tm : List (Player Nat) := [⟨1, "", Role.TOWN⟩, ⟨2, "", Role.MAFIA⟩]

/-- Two-player roster: a goon and a townie (raw ids 1, 2). -/
def roster_gt : List (Player Nat) := [⟨1, "", Role.GOON⟩, ⟨2, "", Role.TOWN⟩]

/-- Four-player roster at exact parity: two mafiosi and two townies. -/
def roster_mmtt : List (Player Nat) :=
  [⟨1, "", Role.MAFIA⟩, ⟨2, "", Role.MAFIA⟩, ⟨3, "", Role.TOWN⟩, ⟨4, "", Role.TOWN⟩]

/-! ## Helper lemmas -/

theorem eraseIdx_findIdx?_eq_removeFirstWith {α : Type} (p : α → Bool) (l : List α) :
    (match l.findIdx? p with
     | some i => l.eraseIdx i
     | none => l) = removeFirstWith p l := by
  induction l with
  | nil => rfl
  | cons x xs ih =>
    by_cases h : p x = true
    · simp [List.findIdx?_cons, h, removeFirstWith]
    · rw [removeFirstWith, if_neg (by simp [h]), List.findIdx?_cons,
        if_neg (by simp [h]), List.findIdx?_start_succ]
      cases hfi : xs.findIdx? p with
      | none =>
        rw [hfi] at ih
        simp only [hfi, Option.map_none']
        exact congrArg (List.cons x) ih
      | some i =>
        rw [hfi] at ih
        simp only [hfi, Option.map_some', Nat.zero_add, List.eraseIdx_cons_succ]
        exact congrArg (List.cons x) ih

theorem removeFirstWith_sublist {α : Type} (p : α → Bool) (l : List α) :
    (removeFirstWith p l).Sublist l := by
  induction l with
  | nil => simp [removeFirstWith]
  | cons x xs ih =>
    by_cases h : p x = true
    · rw [removeFirstWith, if_pos h]
      exact List.sublist_cons_self x xs
    · rw [removeFirstWith, if_neg (by simp [h])]
      exact List.Sublist.cons₂ x ih

theorem removeFirstWith_countP_self {α : Type} (p : α → Bool) (l : List α)
    (h : l.countP p ≤ 1) : (removeFirstWith p l).countP p = 0 := by
  induction l with
  | nil => simp [removeFirstWith]
  | cons x xs ih =>
    by_cases hx : p x = true
    · rw [List.countP_cons_of_pos p _ hx] at h
      simp only [removeFirstWith, hx, if_pos]
      omega
    · rw [List.countP_cons_of_neg p _ (by simp [hx])] at h
      simp only [removeFirstWith, hx, Bool.false_eq_true, if_neg, not_false_iff]
      rw [List.countP_cons_of_neg p _ (by simp [hx])]
      exact ih h

theorem removeFirstWith_not_mem {α : Type} (p : α → Bool) (l : List α)
    (h : l.countP p ≤ 1) : ∀ e ∈ removeFirstWith p l, p e = false := by
  intro e he
  have h0 := removeFirstWith_countP_self p l h
  rw [List.countP_eq_zero] at h0
  simpa using h0 e he

theorem accept_vote_fst_eq (votes : Votes) (voter : Pidx)
    (ballot : Option (Ballot Pidx)) :
    (accept_vote votes voter ballot).1 =
      (match ballot with
       | some b => removeFirstWith (fun vb => decide (vb.1 = voter)) votes ++ [(voter, b)]
       | none => removeFirstWith (fun vb => decide (vb.1 = voter)) votes) := by
  have hrw := eraseIdx_findIdx?_eq_removeFirstWith
    (fun vb : Pidx × Ballot Pidx => decide (vb.1 = voter)) votes
  unfold accept_vote
  cases ballot with
  | some b =>
    cases hfi : votes.findIdx? (fun vb => decide (vb.1 = voter)) with
    | none =>
      rw [hfi] at hrw
      simp only [hfi]
      exact congrArg (fun l => l ++ [(voter, b)]) hrw
    | some i =>
      rw [hfi] at hrw
      simp only [hfi]
      exact congrArg (fun l => l ++ [(voter, b)]) hrw
  | none =>
    cases hfi : votes.findIdx? (fun vb => decide (vb.1 = voter)) with
    | none =>
      rw [hfi] at hrw
      simp only [hfi]
      exact hrw
    | some i =>
      rw [hfi] at hrw
      simp only [hfi]
      exact hrw

omit [DecidableEq U] in
theorem accept_action_fst_eq (actions : Actions) (actor : Actor Pidx)
    (target : Option (Target Pidx)) :
    (accept_action (U := U) actions actor target).1 =
      (match target with
       | some t => removeFirstWith (fun at1 => at1.1.overlaps actor) actions ++ [(actor, t)]
       | none => removeFirstWith (fun at1 => at1.1.overlaps actor) actions) := by
  have hrw := eraseIdx_findIdx?_eq_removeFirstWith
    (fun at1 : Actor Pidx × Target Pidx => at1.1.overlaps actor) actions
  unfold accept_action
  cases target with
  | some t =>
    cases hfi : actions.findIdx? (fun at1 => at1.1.overlaps actor) with
    | none =>
      rw [hfi] at hrw
      simp only [hfi]
      exact congrArg (fun l => l ++ [(actor, t)]) hrw
    | some i =>
      rw [hfi] at hrw
      simp only [hfi]
      exact congrArg (fun l => l ++ [(actor, t)]) hrw
  | none =>
    cases hfi : actions.findIdx? (fun at1 => at1.1.overlaps actor) with
    | none =>
      rw [hfi] at hrw
      simp only [hfi]
      exact hrw
    | some i =>
      rw [hfi] at hrw
      simp only [hfi]
      exact hrw

/-! ## Claim theorems -/

/-- C1 counterexample: on the post-elimination roster [MAFIA, MAFIA, TOWN,
TOWN] the evaluator declares Mafia the winner (since `n_players <=
n_mafia * 2`), yet `n_mafia >= n_players` is false (2 < 4), so "declares
Mafia the winner iff n_mafia >= n_players" fails. -/
theorem check_win_parity_cex :
    ¬ (((check_win roster_mmtt).2 = some Team.Mafia) ↔
        roster_mmtt.length ≤ n_mafia roster_mmtt) := by decide

/-- C1 (amended): for every post-elimination roster the win evaluator
declares Town the winner iff `n_mafia = 0`, declares Mafia the winner iff
`n_mafia ≠ 0` and `n_players ≤ n_mafia * 2` (Mafia has reached parity with
the whole roster's half, not the full roster size), and otherwise declares
no winner. -/
theorem check_win_characterisation {V : Type} [DecidableEq V]
    (players : List (Player V)) :
    ((check_win (U := V) players).2 = some Team.Town ↔ n_mafia players = 0) ∧
    ((check_win (U := V) players).2 = some Team.Mafia ↔
      (n_mafia players ≠ 0 ∧ players.length ≤ n_mafia players * 2)) ∧
    ((check_win (U := V) players).2 = none ↔
      (n_mafia players ≠ 0 ∧ n_mafia players * 2 < players.length)) := by
  unfold check_win
  by_cases h0 : n_mafia players = 0
  · simp [h0]
  · by_cases h1 : players.length ≤ n_mafia players * 2
    · simp [h0, h1]
    · simp [h0, h1]
      omega

/-- C9: the first phase after Init is Day 1; Day n is followed by Night n;
Night n is followed by Day (n+1); hence a full Day→Night→Day cycle
increments the counter by exactly 1. -/
theorem next_phase_day_night_cycle :
    ((next_phase (U := Nat) Phase.Init).1 = Phase.Day 1 []) ∧
    (∀ (n : Nat) (v : Votes),
      (next_phase (U := Nat) (Phase.Day n v)).1 = Phase.Night n []) ∧
    (∀ (n : Nat) (a : Actions),
      (next_phase (U := Nat) (Phase.Night n a)).1 = Phase.Day (n + 1) []) ∧
    (∀ (n : Nat) (v : Votes),
      (next_phase (U := Nat) (next_phase (U := Nat) (Phase.Day n v)).1).1 =
        Phase.Day (n + 1) []) :=
  ⟨rfl, fun _ _ => rfl, fun _ _ => rfl, fun _ _ => rfl⟩

/-- C4 counterexample: a Goon (index 0 of `roster_gt`) submitting a Mafia
action on the townie is stored with target `Player 1` — not forced to
`Blocked` (the role check is only a TODO comment in `accept_action`). -/
theorem goon_target_not_blocked_cex :
    handle_action roster_gt [] (Actor.Mafia 1) (some (Target.Player 2)) =
      ([(Actor.Mafia 0, Target.Player 1)],
       [Event.Action (Actor.Mafia 0) (some (Target.Player 1))], true) ∧
    (roster_gt[0]?).map (fun p => p.role) = some Role.GOON ∧
    (Target.Player 1 : Target Pidx) ≠ Target.Blocked := by decide

/-- C4 (amended): `accept_action` stores the validated target unchanged for
every actor — no role-based rewriting to `Blocked` happens server-side; the
new entry is appended as submitted and the `Action` event reports the
submitted target. -/
theorem accept_action_stores_submitted_target (actions : Actions)
    (actor : Actor Pidx) (t : Target Pidx) :
    ((accept_action (U := Nat) actions actor (some t)).1).getLast? =
      some (actor, t) ∧
    (accept_action (U := Nat) actions actor (some t)).2 =
      [Event.Action actor (some t)] := by
  constructor
  · rw [accept_action_fst_eq]
    exact List.getLast?_concat _
  · rfl

/-- C2: the code contradicts the claim.  With the stripper at index 0
targeting the doctor at index 1, the doctor targeting themself, and the
mafia targeting the doctor: `strip` blocks the entry whose ACTOR is the
stripper's own index (the stripper's declared target is never read), the
doctor's action keeps its `Player 1` target, and `save` then blocks the
mafia kill because the mafia's target equals the doctor's own index — so no
one dies, where the claim requires the doctor's save to be nullified and
the kill to proceed. -/
theorem strip_blocks_stripper_own_entry :
    handle_dawn roster_sdm acts_sdm =
      ([(Actor.Player 0, Target.Blocked), (Actor.Player 1, Target.Player 1),
        (Actor.Mafia 2, Target.Blocked)],
       [Event.Dawn, Event.Strip, Event.Save], none) ∧
    (roster_sdm[0]?).map (fun p => p.role) = some Role.STRIPPER ∧
    (roster_sdm[1]?).map (fun p => p.role) = some Role.DOCTOR := by decide

/-- C7 counterexample: when no surviving Mafia action has a Player target,
`handle_dawn` emits nothing at the kill stage — the only event is the
`Dawn` announcement (the `Event` type has no `NoKill` variant at all), so
"otherwise it emits a NoKill event" fails. -/
theorem no_kill_stage_event_cex :
    (handle_dawn roster_tm [(Actor.Mafia 1, Target.NoTarget)]).2.2 = none ∧
    (handle_dawn roster_tm [(Actor.Mafia 1, Target.NoTarget)]).2.1 =
      [Event.Dawn] := by decide

/-- C3 counterexample: with a live tally `[(0, Player 2)]` in `roster3`, a
retraction (absent ballot) from the second townie still runs threshold
evaluation — `check_elect` emits a `Vote` event (count 1, threshold 2) for
the other voter's surviving ballot — and no retraction event is emitted
(the `Event` type has no `RetractVote` variant), refuting "never runs
threshold/election evaluation as a result of that retraction". -/
theorem retract_runs_threshold_eval_cex :
    (handle_vote roster3 [(0, Ballot.Player 2)] 20 none).2.1 =
      [Event.Vote 0 (some (Ballot.Player 2)) none 2 1] ∧
    ((handle_vote roster3 [(0, Ballot.Player 2)] 20 none).2.1.any
      isVoteEvent) = true := by decide

/-- C5 counterexample: a townie of `roster3` (role TOWN, which has no night
action) submitting a `Player` action is accepted — the tally is mutated and
an `Action` event (not `InvalidCommand`) is emitted; likewise a townie
submitting a Mafia action is accepted although the player is not on the
Mafia team.  `validate_action` checks only id resolution. -/
theorem validate_action_no_role_check_cex :
    handle_action roster3 [] (Actor.Player 10) (some Target.NoTarget) =
      ([(Actor.Player 0, Target.NoTarget)],
       [Event.Action (Actor.Player 0) (some Target.NoTarget)], false) ∧
    (roster3[0]?).map (fun p => p.role.has_night_action) = some false ∧
    handle_action roster3 [] (Actor.Mafia 20) (some (Target.Player 30)) =
      ([(Actor.Mafia 1, Target.Player 2)],
       [Event.Action (Actor.Mafia 1) (some (Target.Player 2))], true) ∧
    (roster3[1]?).map (fun p => decide (p.role.team = Team.Mafia)) =
      some false := by decide

theorem handle_vote_validated (players : List (Player U)) (votes : Votes)
    (raw_voter : U) (raw_ballot : Option (Ballot U)) (v : Pidx)
    (ob : Option (Ballot Pidx))
    (h : validate_vote players raw_voter raw_ballot = some (v, ob)) :
    handle_vote players votes raw_voter raw_ballot =
      ((accept_vote votes v ob).1,
       (check_elect (U := U) players (accept_vote votes v ob).1
          (accept_vote votes v ob).2).1,
       (check_elect (U := U) players (accept_vote votes v ob).1
          (accept_vote votes v ob).2).2) := by
  unfold handle_vote
  rw [h]

omit [DecidableEq U] in
theorem check_elect_last (players : List (Player U)) (votes : Votes)
    (former : Option (Ballot Pidx)) (lv : Pidx) (lb : Ballot Pidx)
    (h : votes.getLast? = some (lv, lb)) :
    check_elect (U := U) players votes former =
      ([Event.Vote lv (some lb) former (ballot_threshold players.length lb)
          ((votes.filter (fun vb => decide (vb.2 = lb))).length)],
       if ballot_threshold players.length lb ≤
            (votes.filter (fun vb => decide (vb.2 = lb))).length
       then some lb else none) := by
  cases lb with
  | Player c =>
    unfold check_elect
    rw [h]
    rfl
  | Abstain =>
    unfold check_elect
    rw [h]
    rfl

/-- C6: for every accepted Day vote the engine evaluates only the most
recently cast ballot: the emitted `Vote` event carries the live count of
ballots equal to the just-cast ballot and the threshold for that ballot
(`N/2 + 1` for a `Player` ballot, `(N+1)/2` for `Abstain`, `N` the roster
size), and an election is returned iff that count reaches that threshold. -/
theorem handle_vote_threshold_spec (players : List (Player U)) (votes : Votes)
    (raw_voter : U) (raw_ballot : Option (Ballot U)) (v : Pidx) (b : Ballot Pidx)
    (h : validate_vote players raw_voter raw_ballot = some (v, some b)) :
    handle_vote players votes raw_voter raw_ballot =
      ((accept_vote votes v (some b)).1,
       [Event.Vote v (some b) (accept_vote votes v (some b)).2
          (ballot_threshold players.length b)
          (((accept_vote votes v (some b)).1.filter
              (fun vb => decide (vb.2 = b))).length)],
       if ballot_threshold players.length b ≤
            ((accept_vote votes v (some b)).1.filter
              (fun vb => decide (vb.2 = b))).length
       then some b else none) := by
  have hlast : (accept_vote votes v (some b)).1.getLast? = some (v, b) := by
    rw [accept_vote_fst_eq]
    exact List.getLast?_concat _
  rw [handle_vote_validated players votes raw_voter raw_ballot v (some b) h,
    check_elect_last players _ _ v b hlast]

/-- Witness for C6 at a concrete input: the second townie of `roster3`
votes for the mafioso; the event reports count 1 and threshold 2 and no
election fires. -/
theorem handle_vote_threshold_spec_witness :
    validate_vote roster3 20 (some (Ballot.Player 30)) =
      some (1, some (Ballot.Player 2)) ∧
    handle_vote roster3 [] 20 (some (Ballot.Player 30)) =
      ([(1, Ballot.Player 2)],
       [Event.Vote 1 (some (Ballot.Player 2)) none 2 1], none) :=
  ⟨by decide,
   (handle_vote_threshold_spec roster3 [] 20 (some (Ballot.Player 30)) 1
      (Ballot.Player 2) (by decide)).trans (by decide)⟩

/-- C3 (amended): a Day-phase vote command with an absent ballot removes
the voter's prior ballot without re-adding one (the resulting tally is a
sublist of the old one) and emits no retraction-specific event (none
exists); election evaluation is NOT skipped — `check_elect` still runs on
the post-removal tally, so a `Vote` threshold event for the most recently
cast surviving ballot is emitted whenever the tally is nonempty. -/
theorem handle_vote_retract (players : List (Player U)) (votes : Votes)
    (raw_voter : U) (v : Pidx)
    (h : check_player players raw_voter = some v) :
    handle_vote players votes raw_voter none =
      ((accept_vote votes v none).1,
       (check_elect (U := U) players (accept_vote votes v none).1
          (accept_vote votes v none).2).1,
       (check_elect (U := U) players (accept_vote votes v none).1
          (accept_vote votes v none).2).2) ∧
    ((accept_vote votes v none).1).Sublist votes := by
  have hv : validate_vote players raw_voter none = some (v, none) := by
    unfold validate_vote
    rw [h]
    rfl
  refine ⟨handle_vote_validated players votes raw_voter none v none hv, ?_⟩
  rw [accept_vote_fst_eq]
  exact removeFirstWith_sublist _ _

/-- Witness for C3's amended theorem at a concrete input: a retraction from
the second townie of `roster3` while the first townie's ballot is live. -/
theorem handle_vote_retract_witness :
    check_player roster3 20 = some 1 ∧
    (handle_vote roster3 [(0, Ballot.Player 2)] 20 none =
      ((accept_vote [(0, Ballot.Player 2)] 1 none).1,
       (check_elect (U := Nat) roster3 (accept_vote [(0, Ballot.Player 2)] 1 none).1
          (accept_vote [(0, Ballot.Player 2)] 1 none).2).1,
       (check_elect (U := Nat) roster3 (accept_vote [(0, Ballot.Player 2)] 1 none).1
          (accept_vote [(0, Ballot.Player 2)] 1 none).2).2) ∧
     ((accept_vote [(0, Ballot.Player 2)] 1 none).1).Sublist
        [(0, Ballot.Player 2)]) :=
  ⟨by decide, handle_vote_retract roster3 [(0, Ballot.Player 2)] 20 1 (by decide)⟩

theorem validate_actor_eq_none (players : List (Player U)) (raw_actor : Actor U) :
    validate_actor players raw_actor = none ↔
      check_player players raw_actor.raw = none := by
  cases raw_actor <;> simp [validate_actor, Actor.raw]

theorem validate_target_eq_none (players : List (Player U))
    (raw_target : Option (Target U)) :
    validate_target players raw_target = none ↔
      ∃ rp, raw_target = some (Target.Player rp) ∧
        check_player players rp = none := by
  cases raw_target with
  | none => simp [validate_target]
  | some t =>
    cases t with
    | Player rp => simp [validate_target]
    | NoTarget => simp [validate_target]
    | Blocked => simp [validate_target]

/-- C5 (amended): a Night-phase Action command fails validation iff a raw
player id fails to resolve against the roster — either the actor's
underlying id or the id inside a `Player` target; no night-capability check
for `Actor::Player` and no Mafia-team check for `Actor::Mafia` exists.  A
validation failure is moreover equivalent to `handle_action` leaving the
tally unchanged and emitting exactly one `InvalidCommand` event. -/
theorem validate_action_resolution_only (players : List (Player U))
    (actions : Actions) (raw_actor : Actor U)
    (raw_target : Option (Target U)) :
    (validate_action players raw_actor raw_target = none ↔
      (check_player players raw_actor.raw = none ∨
       ∃ rp, raw_target = some (Target.Player rp) ∧
         check_player players rp = none)) ∧
    (handle_action players actions raw_actor raw_target =
        (actions, [Event.InvalidCommand], false) ↔
      validate_action players raw_actor raw_target = none) := by
  constructor
  · rw [← validate_actor_eq_none, ← validate_target_eq_none]
    unfold validate_action
    cases ha : validate_actor players raw_actor with
    | none => simp [ha]
    | some a =>
      cases ht : validate_target players raw_target with
      | none => simp [ha, ht]
      | some t => simp [ha, ht]
  · constructor
    · intro he
      cases hv : validate_action players raw_actor raw_target with
      | none => rfl
      | some at1 =>
        exfalso
        obtain ⟨a, t⟩ := at1
        unfold handle_action at he
        rw [hv] at he
        have h2 := congrArg (fun x => x.2.1) he
        simp only at h2
        cases t with
        | none => simp [accept_action] at h2
        | some tgt =>
          unfold accept_action at h2
          cases hfi : actions.findIdx? (fun at1 => at1.1.overlaps a) <;>
            simp [hfi] at h2
    · intro hn
      unfold handle_action
      rw [hn]

/-- C10: a Night-phase Action command whose submitted target is absent or
`Blocked` passes validation (normalised to no target) and acts as a
retraction: the first tally entry from an overlapping actor is removed and
— when the tally held at most one overlapping entry, as reachable tallies
do — no overlapping entry remains; nothing is appended (the new tally is a
sublist of the old), and no `Action` event is emitted. -/
theorem handle_action_blank_target_retracts (players : List (Player U))
    (actions : Actions) (raw_actor : Actor U) (a : Actor Pidx)
    (raw_target : Option (Target U))
    (ha : validate_actor players raw_actor = some a)
    (ht : raw_target = none ∨ raw_target = some Target.Blocked)
    (hone : countOverlap actions a ≤ 1) :
    validate_action players raw_actor raw_target = some (a, none) ∧
    handle_action players actions raw_actor raw_target =
      ((accept_action (U := U) actions a none).1, [],
       check_dawn players (accept_action (U := U) actions a none).1) ∧
    ((accept_action (U := U) actions a none).1).Sublist actions ∧
    (∀ e ∈ (accept_action (U := U) actions a none).1,
      e.1.overlaps a = false) := by
  have hvt : validate_target players raw_target = some none := by
    rcases ht with rfl | rfl <;> rfl
  have hv : validate_action players raw_actor raw_target = some (a, none) := by
    unfold validate_action
    rw [ha, hvt]
    rfl
  refine ⟨hv, ?_, ?_, ?_⟩
  · unfold handle_action
    rw [hv]
    rfl
  · rw [accept_action_fst_eq]
    exact removeFirstWith_sublist _ _
  · rw [accept_action_fst_eq]
    exact removeFirstWith_not_mem _ _ hone

/-- Witness for C10 at a concrete input: the first townie of `roster3`
retracts (absent target) while their prior `NoTarget` action is live. -/
theorem handle_action_blank_target_retracts_witness :
    validate_actor roster3 (Actor.Player 10) = some (Actor.Player 0) ∧
    countOverlap [(Actor.Player 0, Target.NoTarget)] (Actor.Player 0) ≤ 1 ∧
    (validate_action roster3 (Actor.Player 10) none =
        some (Actor.Player 0, none) ∧
     handle_action roster3 [(Actor.Player 0, Target.NoTarget)]
         (Actor.Player 10) none =
       ((accept_action (U := Nat) [(Actor.Player 0, Target.NoTarget)]
           (Actor.Player 0) none).1, [],
        check_dawn roster3
          (accept_action (U := Nat) [(Actor.Player 0, Target.NoTarget)]
            (Actor.Player 0) none).1) ∧
     ((accept_action (U := Nat) [(Actor.Player 0, Target.NoTarget)]
         (Actor.Player 0) none).1).Sublist
       [(Actor.Player 0, Target.NoTarget)] ∧
     (∀ e ∈ (accept_action (U := Nat) [(Actor.Player 0, Target.NoTarget)]
         (Actor.Player 0) none).1, e.1.overlaps (Actor.Player 0) = false)) :=
  ⟨by decide, by decide,
   handle_action_blank_target_retracts roster3
     [(Actor.Player 0, Target.NoTarget)] (Actor.Player 10) (Actor.Player 0)
     none (by decide) (Or.inl rfl) (by decide)⟩

theorem overlaps_mafia_eq_is_mafia (a : Actor Pidx) (m : Pidx) :
    a.overlaps (Actor.Mafia m) = a.is_mafia := by
  cases a <;> rfl

omit [DecidableEq U] in
/-- C8: the dawn-readiness check succeeds iff every player whose role has a
night action has an entry in the tally and at least one Mafia entry exists;
moreover the Mafia occupies at most one tally slot: `accept_action`
preserves "at most one Mafia entry" for every submission (a new Mafia
submission replaces any prior one). -/
theorem check_dawn_ready_spec (players : List (Player U)) (actions : Actions)
    (actor : Actor Pidx) (target : Option (Target Pidx))
    (hone : countMafiaEntries actions ≤ 1) :
    (check_dawn players actions = true ↔
      ((∀ (i : Nat) (p : Player U), players[i]? = some p →
          p.role.has_night_action = true →
          ∃ t, (Actor.Player i, t) ∈ actions) ∧
       (∃ a t, (a, t) ∈ actions ∧ a.is_mafia = true))) ∧
    countMafiaEntries ((accept_action (U := U) actions actor target).1) ≤ 1 := by
  constructor
  · unfold check_dawn
    rw [List.all_eq_true, List.forall_mem_append, List.forall_mem_singleton]
    constructor
    · rintro ⟨h1, h2⟩
      constructor
      · intro i p hip hna
        have hmem : (Actor.Player i : Actor Pidx) ∈
            ((players.enum.filter
              (fun ip => ip.2.role.has_night_action)).map
              (fun ip => Actor.Player ip.1)) :=
          List.mem_map.mpr ⟨(i, p), by
            rw [List.mem_filter]
            exact ⟨List.mem_enum_iff_getElem?.mpr (by simpa using hip), hna⟩,
            rfl⟩
        have h3 := h1 _ hmem
        simp only [List.any_eq_true] at h3
        obtain ⟨⟨a1, t⟩, hmem1, hdec⟩ := h3
        simp only [decide_eq_true_eq] at hdec
        subst hdec
        exact ⟨t, hmem1⟩
      · simp only [List.any_eq_true] at h2
        obtain ⟨⟨a1, t⟩, hm, hb⟩ := h2
        exact ⟨a1, t, hm, hb⟩
    · rintro ⟨h1, h2⟩
      constructor
      · intro x hx
        obtain ⟨ip, hipmem, rfl⟩ := List.mem_map.mp hx
        obtain ⟨hipenum, hna⟩ := List.mem_filter.mp hipmem
        obtain ⟨i, p⟩ := ip
        have hip : players[i]? = some p := by
          simpa using List.mem_enum_iff_getElem?.mp hipenum
        obtain ⟨t, htmem⟩ := h1 i p hip hna
        simp only [List.any_eq_true]
        exact ⟨(Actor.Player i, t), htmem, by simp⟩
      · obtain ⟨a1, t, hm, hb⟩ := h2
        simp only [List.any_eq_true]
        exact ⟨(a1, t), hm, hb⟩
  · cases target with
    | none =>
      rw [accept_action_fst_eq]
      exact le_trans
        (List.Sublist.countP_le _ (removeFirstWith_sublist _ actions)) hone
    | some t =>
      rw [accept_action_fst_eq]
      unfold countMafiaEntries at hone ⊢
      rw [List.countP_append]
      cases actor with
      | Player p =>
        have h0 : List.countP
            (fun at1 : Actor Pidx × Target Pidx => at1.1.is_mafia)
            [(Actor.Player p, t)] = 0 := rfl
        rw [h0]
        have hle : List.countP
              (fun at1 : Actor Pidx × Target Pidx => at1.1.is_mafia)
              (removeFirstWith
                (fun at1 => at1.1.overlaps (Actor.Player p)) actions) ≤
            List.countP
              (fun at1 : Actor Pidx × Target Pidx => at1.1.is_mafia)
              actions :=
          List.Sublist.countP_le _ (removeFirstWith_sublist _ actions)
        omega
      | Mafia m =>
        have hfun : (fun at1 : Actor Pidx × Target Pidx =>
            at1.1.overlaps (Actor.Mafia m)) =
            (fun at1 : Actor Pidx × Target Pidx => at1.1.is_mafia) := by
          funext at1
          exact overlaps_mafia_eq_is_mafia at1.1 m
        rw [hfun, removeFirstWith_countP_self _ actions hone]
        exact Nat.le_refl 1

/-- Witness for C8 at a concrete input: `roster_sdm` with all three night
slots filled (stripper, doctor, Mafia) is dawn-ready, and a fresh Mafia
submission keeps a single Mafia slot. -/
theorem check_dawn_ready_spec_witness :
    countMafiaEntries acts_sdm ≤ 1 ∧
    ((check_dawn roster_sdm acts_sdm = true ↔
      ((∀ (i : Nat) (p : Player Nat), roster_sdm[i]? = some p →
          p.role.has_night_action = true →
          ∃ t, (Actor.Player i, t) ∈ acts_sdm) ∧
       (∃ a t, (a, t) ∈ acts_sdm ∧ a.is_mafia = true))) ∧
     countMafiaEntries
       ((accept_action (U := Nat) acts_sdm (Actor.Mafia 2)
         (some (Target.Player 0))).1) ≤ 1) :=
  ⟨by decide,
   check_dawn_ready_spec roster_sdm acts_sdm (Actor.Mafia 2)
     (some (Target.Player 0)) (by decide)⟩

omit [DecidableEq U] in
theorem foldl_strip_events (ss : List Pidx) (st : Actions × List (Event U))
    (e : Event U)
    (he : e ∈ (ss.foldl (fun acc s =>
        let r := strip (U := U) acc.1 s
        (r.1, acc.2 ++ r.2)) st).2) :
    e ∈ st.2 ∨ e = Event.Strip := by
  induction ss generalizing st with
  | nil => exact Or.inl he
  | cons s ss ih =>
    rw [List.foldl_cons] at he
    rcases ih _ he with h | h
    · rcases List.mem_append.mp h with h1 | h1
      · exact Or.inl h1
      · right
        rcases List.mem_map.mp h1 with ⟨_, _, rfl⟩
        rfl
    · exact Or.inr h

omit [DecidableEq U] in
theorem mem_stripAll_snd (acts : Actions) (ss : List Pidx) (e : Event U)
    (he : e ∈ (stripAll (U := U) acts ss).2) : e = Event.Strip := by
  rcases foldl_strip_events ss (acts, []) e he with h | h
  · simp at h
  · exact h

omit [DecidableEq U] in
theorem foldl_save_events (ds : List Pidx) (st : Actions × List (Event U))
    (e : Event U)
    (he : e ∈ (ds.foldl (fun acc d =>
        let r := save (U := U) acc.1 d
        (r.1, acc.2 ++ r.2)) st).2) :
    e ∈ st.2 ∨ e = Event.Save := by
  induction ds generalizing st with
  | nil => exact Or.inl he
  | cons d ds ih =>
    rw [List.foldl_cons] at he
    rcases ih _ he with h | h
    · rcases List.mem_append.mp h with h1 | h1
      · exact Or.inl h1
      · right
        rcases List.mem_map.mp h1 with ⟨_, _, rfl⟩
        rfl
    · exact Or.inr h

omit [DecidableEq U] in
theorem mem_saveAll_snd (acts : Actions) (ds : List Pidx) (e : Event U)
    (he : e ∈ (saveAll (U := U) acts ds).2) : e = Event.Save := by
  rcases foldl_save_events ds (acts, []) e he with h | h
  · simp at h
  · exact h

omit [DecidableEq U] in
theorem mem_investigateAll (acts : Actions) (cs : List Pidx) (e : Event U)
    (he : e ∈ investigateAll (U := U) acts cs) : e = Event.Investigate := by
  suffices h : ∀ (cs : List Pidx) (acc : List (Event U)),
      e ∈ cs.foldl (fun acc cop =>
        match (acts.find? (fun at1 => at1.1.is_player cop)).map
            (fun at1 => at1.2) with
        | some (Target.Player _) => acc ++ [Event.Investigate]
        | _ => acc) acc →
      e ∈ acc ∨ e = Event.Investigate by
    rcases h cs [] he with h1 | h1
    · simp at h1
    · exact h1
  intro cs
  induction cs with
  | nil => exact fun acc h => Or.inl h
  | cons c cs ih =>
    intro acc h
    rw [List.foldl_cons] at h
    rcases hm : (acts.find? (fun at1 => at1.1.is_player c)).map
        (fun at1 => at1.2) with _ | t
    · rw [hm] at h
      exact ih _ h
    · cases t with
      | Player p =>
        rw [hm] at h
        rcases ih _ h with h1 | h1
        · rcases List.mem_append.mp h1 with h2 | h2
          · exact Or.inl h2
          · right
            simpa using h2
        · exact Or.inr h1
      | NoTarget =>
        rw [hm] at h
        exact ih _ h
      | Blocked =>
        rw [hm] at h
        exact ih _ h

set_option maxHeartbeats 1000000 in
/-- C7 (amended): at the kill stage `handle_dawn` returns as victim the
`Player` target of the first Mafia entry of the post-strip/save tally (if
its target is not a `Player`, or no Mafia entry exists, there is no
victim); exactly one `Kill` event — a unit event carrying no killer/victim
data — is emitted iff a victim exists, and nothing is emitted at the kill
stage otherwise; the event stream always opens with `Dawn`. -/
theorem handle_dawn_kill_spec (players : List (Player U)) (actions : Actions) :
    ((handle_dawn players actions).2.2 =
      (match (handle_dawn players actions).1.find?
          (fun at1 => at1.1.is_mafia) with
       | some (_, Target.Player v) => some v
       | _ => none)) ∧
    ((handle_dawn players actions).2.1.countP
        (fun e => decide (e = Event.Kill)) =
      if (handle_dawn players actions).2.2.isSome then 1 else 0) ∧
    ((handle_dawn players actions).2.1.head? = some Event.Dawn) := by
  have hS : ∀ e ∈ (stripAll (U := U) actions
      (players_with_role players Role.STRIPPER)).2, e = Event.Strip :=
    fun e he => mem_stripAll_snd _ _ e he
  have hB : ∀ e ∈ (saveAll (U := U)
      (stripAll (U := U) actions (players_with_role players Role.STRIPPER)).1
      (players_with_role players Role.DOCTOR)).2, e = Event.Save :=
    fun e he => mem_saveAll_snd _ _ e he
  have hI : ∀ e ∈ investigateAll (U := U)
      (saveAll (U := U)
        (stripAll (U := U) actions (players_with_role players Role.STRIPPER)).1
        (players_with_role players Role.DOCTOR)).1
      (players_with_role players Role.COP), e = Event.Investigate :=
    fun e he => mem_investigateAll _ _ e he
  have hS0 : ((stripAll (U := U) actions
      (players_with_role players Role.STRIPPER)).2).countP
      (fun e => decide (e = Event.Kill)) = 0 :=
    List.countP_eq_zero.mpr (fun e he => by rw [hS e he]; simp)
  have hB0 : ((saveAll (U := U)
      (stripAll (U := U) actions (players_with_role players Role.STRIPPER)).1
      (players_with_role players Role.DOCTOR)).2).countP
      (fun e => decide (e = Event.Kill)) = 0 :=
    List.countP_eq_zero.mpr (fun e he => by rw [hB e he]; simp)
  have hI0 : (investigateAll (U := U)
      (saveAll (U := U)
        (stripAll (U := U) actions (players_with_role players Role.STRIPPER)).1
        (players_with_role players Role.DOCTOR)).1
      (players_with_role players Role.COP)).countP
      (fun e => decide (e = Event.Kill)) = 0 :=
    List.countP_eq_zero.mpr (fun e he => by rw [hI e he]; simp)
  simp only [handle_dawn]
  rcases hfind : (saveAll (U := U)
      (stripAll (U := U) actions (players_with_role players Role.STRIPPER)).1
      (players_with_role players Role.DOCTOR)).1.find?
      (fun at1 => at1.1.is_mafia) with _ | ⟨a, t⟩
  · simp only [hfind]
    refine ⟨by trivial, ?_, by trivial⟩
    simp [List.countP_append, hS0, hB0, hI0]
  · cases t with
    | Player v =>
      simp only [hfind]
      refine ⟨by trivial, ?_, by trivial⟩
      simp [List.countP_append, hS0, hB0, hI0]
    | NoTarget =>
      simp only [hfind]
      refine ⟨by trivial, ?_, by trivial⟩
      simp [List.countP_append, hS0, hB0, hI0]
    | Blocked =>
      simp only [hfind]
      refine ⟨by trivial, ?_, by trivial⟩
      simp [List.countP_append, hS0, hB0, hI0]

end Mafia
